import Mathlib

/-!
Verification of the fetch-and-flatten core of the Klaviyo campaign/tag sync
(`src/main.py`).  The paginated fetcher `fetch_campaign_ids_and_tags` and the
flattening loop of `main` are embedded shallowly: the network is replaced by an
explicit script of `Response` values consumed one per loop iteration, and the
observable side effects (requests issued, sleeps performed, warnings logged)
are returned alongside the accumulated records.
-/

set_option autoImplicit false

namespace KlaviyoSync

/-- A side-loaded entity from the response's `included` array:
`{type, id, attributes: {name}}`. -/
structure IncludedEntity where
  type : String
  id : String
  name : String
deriving Repr, DecidableEq

/-- A primary resource from the response's `data` array: `id`,
`attributes.name`, and the tag-reference ids from
`relationships.tags.data[]` (defaulting to `[]` when the chain of keys is
absent, as in `campaign.get('relationships', {}).get('tags', {}).get('data', [])`). -/
structure CampaignResource where
  id : String
  name : String
  tagsData : List String
deriving Repr, DecidableEq

/-- One HTTP response of the script.  `retry_after` models the numeric
`Retry-After` header (`none` = header absent); `body` is `response.text`;
`data` is `none` when the JSON body has no `data` key; `included` models
`data.get('included', [])`; `links_next` is the query-parameter list of the
parsed `links.next` URL (`none` = no usable next link). -/
structure Response where
  status_code : Nat
  retry_after : Option Nat
  body : String
  data : Option (List CampaignResource)
  included : List IncludedEntity
  links_next : Option (List (String × String))
deriving Repr, DecidableEq

/-- A tag entry appended to a campaign's `tags` list:
`{'tag_id': ..., 'tag_name': ...}` where `tag_name` may be Python `None`. -/
structure TagRef where
  tag_id : String
  tag_name : Option String
deriving Repr, DecidableEq

/-- An accumulator entry:
`{'campaign_id': ..., 'campaign_name': ..., 'tags': [...]}`. -/
structure CampaignRecord where
  campaign_id : String
  campaign_name : String
  tags : List TagRef
deriving Repr, DecidableEq

/-- A flattened row produced by the loop in `main`:
`{'campaign_id', 'campaign_name', 'tag_id', 'tag_name'}`. -/
structure CampaignTagRow where
  campaign_id : String
  campaign_name : String
  tag_id : String
  tag_name : Option String
deriving Repr, DecidableEq

/-- Python truthiness of the optional `page_cursor` string: `None` and the
empty string are falsy. -/
def pyTruthy : Option String → Bool
  | none => false
  | some s => s != ""

/-- The `page[cursor]` parameter actually sent with a request:
included only when `if page_cursor:` holds. -/
def sentCursor (cursor : Option String) : Option String :=
  if pyTruthy cursor then cursor else none

/-- `tag_name = next((included['attributes']['name'] for included in
data.get('included', []) if included['type'] == 'tag' and included['id'] ==
tag_id), None)`: first entity of type `"tag"` with matching id, else `None`. -/
def resolveTagName (included : List IncludedEntity) (tagId : String) : Option String :=
  (included.find? (fun e => e.type == "tag" && e.id == tagId)).map (fun e => e.name)

/-- The tag entry built for one tag reference. -/
def buildTagRef (included : List IncludedEntity) (tagId : String) : TagRef :=
  { tag_id := tagId, tag_name := resolveTagName included tagId }

/-- The accumulator entry built for one primary resource (lines 72-92 of
`src/main.py`). -/
def buildRecord (included : List IncludedEntity) (c : CampaignResource) : CampaignRecord :=
  { campaign_id := c.id
    campaign_name := c.name
    tags := c.tagsData.map (buildTagRef included) }

/-- The `for campaign in data['data']` loop: append one record per resource,
breaking as soon as `len(campaign_ids_and_tags) >= limit` (checked after the
append). -/
def processResources (limit : Int) (included : List IncludedEntity)
    (acc : List CampaignRecord) : List CampaignResource → List CampaignRecord
  | [] => acc
  | c :: rest =>
    let acc' := acc ++ [buildRecord included c]
    if (acc'.length : Int) ≥ limit then acc'
    else processResources limit included acc' rest

/-- `page_cursor = query_params.get('page[cursor]', [None])[0]` over the parsed
next link: first value of the `page[cursor]` query parameter, if any. -/
def extractCursor : Option (List (String × String)) → Option String
  | none => none
  | some qs => (qs.find? (fun p => p.1 == "page[cursor]")).map (fun p => p.2)

/-- Trace and records of a fetch run that returned normally. -/
structure FetchOk where
  records : List CampaignRecord
  requests : List (Option String)
  sleeps : List Nat
  warnings : List String
deriving Repr, DecidableEq

/-- Outcome of a fetch run against a finite response script: normal return,
the exception raised on a non-200/non-429 status (carrying `response.text`),
or exhaustion of the script while the loop still wanted another page. -/
inductive FetchOutcome where
  | ok (result : FetchOk)
  | err (body : String) (requests : List (Option String)) (sleeps : List Nat)
      (warnings : List String)
  | outOfResponses
deriving Repr, DecidableEq

/-- The `while has_next and len(campaign_ids_and_tags) < limit` loop of
`fetch_campaign_ids_and_tags`, one response consumed per iteration.
State: loop flag `hasNext`, current `page_cursor`, accumulator, and the
traces of requests sent (their cursor parameter), sleeps, and warnings. -/
def fetchLoop (limit : Int) (hasNext : Bool) (cursor : Option String)
    (acc : List CampaignRecord) (reqs : List (Option String))
    (sleeps : List Nat) (warns : List String) :
    List Response → FetchOutcome
  | [] =>
    if hasNext = true ∧ (acc.length : Int) < limit then
      FetchOutcome.outOfResponses
    else
      FetchOutcome.ok ⟨acc, reqs, sleeps, warns⟩
  | r :: rest =>
    if hasNext = true ∧ (acc.length : Int) < limit then
      let reqs' := reqs ++ [sentCursor cursor]
      if r.status_code = 429 then
        fetchLoop limit hasNext cursor acc reqs'
          (sleeps ++ [r.retry_after.getD 60]) warns rest
      else if r.status_code ≠ 200 then
        FetchOutcome.err r.body reqs' sleeps warns
      else
        let acc' := match r.data with
          | some cs => processResources limit r.included acc cs
          | none => acc
        let warns' := match r.data with
          | some _ => warns
          | none => warns ++ [r.body]
        let nc := extractCursor r.links_next
        fetchLoop limit (pyTruthy nc) nc acc' reqs' sleeps warns' rest
    else
      FetchOutcome.ok ⟨acc, reqs, sleeps, warns⟩

/-- `fetch_campaign_ids_and_tags(api_key, channel, limit)` run against a
response script: `has_next = True`, `page_cursor = None`, empty accumulator. -/
def fetch_campaign_ids_and_tags (limit : Int) (responses : List Response) :
    FetchOutcome :=
  fetchLoop limit true none [] [] [] [] responses

/-- The row built for one (campaign, tag) pair in `main`'s flattening loop. -/
def mkRow (c : CampaignRecord) (t : TagRef) : CampaignTagRow :=
  { campaign_id := c.campaign_id
    campaign_name := c.campaign_name
    tag_id := t.tag_id
    tag_name := t.tag_name }

/-- The flattening loop of `main` (lines 118-129 of `src/main.py`): for each
campaign, for each of its tags, append one row. -/
def flatten (campaigns : List CampaignRecord) : List CampaignTagRow :=
  campaigns.flatMap (fun c => c.tags.map (mkRow c))

/-- Sum of the tag-list lengths of the first `i` campaigns: the index in the
flattened output where campaign `i`'s rows begin. -/
def tagsBefore (campaigns : List CampaignRecord) (i : Nat) : Nat :=
  ((campaigns.take i).map (fun c => c.tags.length)).sum

/-! ### Helper lemmas -/

theorem flatten_nil : flatten [] = [] := rfl

theorem flatten_cons (c : CampaignRecord) (cs : List CampaignRecord) :
    flatten (c :: cs) = c.tags.map (mkRow c) ++ flatten cs := rfl

/-- When the loop guard fails, the loop returns the current accumulator and
traces unchanged, whatever responses remain unconsumed. -/
theorem fetchLoop_done (limit : Int) (hasNext : Bool) (cursor : Option String)
    (acc : List CampaignRecord) (reqs : List (Option String)) (sleeps : List Nat)
    (warns : List String) (responses : List Response)
    (h : ¬(hasNext = true ∧ (acc.length : Int) < limit)) :
    fetchLoop limit hasNext cursor acc reqs sleeps warns responses
      = FetchOutcome.ok ⟨acc, reqs, sleeps, warns⟩ := by
  cases responses <;> simp [fetchLoop, h]

/-- Page processing never pushes the accumulator past the limit: it breaks as
soon as the length reaches it. -/
theorem processResources_length_le (limit : Int) (included : List IncludedEntity) :
    ∀ (cs : List CampaignResource) (acc : List CampaignRecord),
      (acc.length : Int) < limit →
      ((processResources limit included acc cs).length : Int) ≤ limit
  | [], acc, h => by
    simpa [processResources] using le_of_lt h
  | c :: rest, acc, h => by
    simp only [processResources]
    split
    · simpa using h
    · rename_i hlt
      exact processResources_length_le limit included rest (acc ++ [buildRecord included c])
        (lt_of_not_ge hlt)

/-- The loop preserves the bound `accumulator length ≤ limit` into any normal
return. -/
theorem fetchLoop_ok_length (limit : Int) :
    ∀ (responses : List Response) (hasNext : Bool) (cursor : Option String)
      (acc : List CampaignRecord) (reqs : List (Option String)) (sleeps : List Nat)
      (warns : List String) (out : FetchOk),
      (acc.length : Int) ≤ limit →
      fetchLoop limit hasNext cursor acc reqs sleeps warns responses
        = FetchOutcome.ok out →
      (out.records.length : Int) ≤ limit
  | [], hasNext, cursor, acc, reqs, sleeps, warns, out, hacc, hok => by
    simp only [fetchLoop] at hok
    split at hok
    · exact absurd hok (by simp)
    · cases hok; exact hacc
  | r :: rest, hasNext, cursor, acc, reqs, sleeps, warns, out, hacc, hok => by
    simp only [fetchLoop] at hok
    split at hok
    · rename_i hguard
      split at hok
      · exact fetchLoop_ok_length limit rest _ _ _ _ _ _ _ hacc hok
      · split at hok
        · exact absurd hok (by simp)
        · refine fetchLoop_ok_length limit rest _ _ _ _ _ _ _ ?_ hok
          cases hdata : r.data with
          | none => simpa [hdata] using hacc
          | some cs =>
            simpa [hdata] using
              processResources_length_le limit r.included cs acc hguard.2
    · cases hok; exact hacc

/-! ### Claim theorems -/

/-- C1: for every sequence of API pages and every (non-negative) limit, a
normally returning fetch yields at most `limit` CampaignRecords. -/
theorem fetch_never_exceeds_limit (limit : Int) (responses : List Response)
    (out : FetchOk) (hlim : 0 ≤ limit)
    (hok : fetch_campaign_ids_and_tags limit responses = FetchOutcome.ok out) :
    (out.records.length : Int) ≤ limit :=
  fetchLoop_ok_length limit responses true none [] [] [] [] out (by simpa using hlim) hok

/-- Witness for C1: a single page holding two campaigns, fetched with
`limit = 1`, returns one record, and the theorem bounds it by the limit. -/
theorem fetch_never_exceeds_limit_witness :
    (0 : Int) ≤ 1 ∧
      (((⟨[⟨"A", "CampA", []⟩], [none], [], []⟩ : FetchOk).records.length : Int) ≤ 1) :=
  ⟨by decide,
    fetch_never_exceeds_limit 1
      [⟨200, none, "body", some [⟨"A", "CampA", []⟩, ⟨"B", "CampB", []⟩], [], none⟩]
      ⟨[⟨"A", "CampA", []⟩], [none], [], []⟩ (by decide) (by rfl)⟩

/-- C2: the flattener's output row count is the sum over campaigns of their
tag-list lengths; a campaign with an empty tag list contributes zero rows, and
flattening is a total function. -/
theorem flatten_length (campaigns : List CampaignRecord) :
    (flatten campaigns).length = (campaigns.map (fun c => c.tags.length)).sum := by
  induction campaigns with
  | nil => rfl
  | cons c cs ih => simp [flatten_cons, ih]

/-- C9: for every non-positive limit, fetch issues no request at all and
returns the empty sequence (and no sleeps, no warnings). -/
theorem fetch_nonpositive_limit (limit : Int) (responses : List Response)
    (hlim : limit ≤ 0) :
    fetch_campaign_ids_and_tags limit responses
      = FetchOutcome.ok ⟨[], [], [], []⟩ := by
  unfold fetch_campaign_ids_and_tags
  exact fetchLoop_done limit true none [] [] [] [] responses (by simp; omega)

/-- Witness for C9: with `limit = -3` and a non-empty response script, fetch
returns no records and issues no request. -/
theorem fetch_nonpositive_limit_witness :
    (-3 : Int) ≤ 0 ∧
      fetch_campaign_ids_and_tags (-3)
          [⟨200, none, "body", some [⟨"A", "CampA", []⟩], [], none⟩]
        = FetchOutcome.ok ⟨[], [], [], []⟩ :=
  ⟨by decide,
    fetch_nonpositive_limit (-3)
      [⟨200, none, "body", some [⟨"A", "CampA", []⟩], [], none⟩] (by decide)⟩

/-- C3: each flattened row is an exact copy of the source campaign/tag fields,
and the row for tag `j` of campaign `i` sits at position
`tagsBefore campaigns i + j`: campaign order first, tag order within each
campaign. -/
theorem flatten_row_exact :
    ∀ (campaigns : List CampaignRecord) (i j : Nat) (c : CampaignRecord) (t : TagRef),
      campaigns[i]? = some c → c.tags[j]? = some t →
      (flatten campaigns)[tagsBefore campaigns i + j]?
        = some ⟨c.campaign_id, c.campaign_name, t.tag_id, t.tag_name⟩
  | [], i, j, c, t, hc, ht => by simp at hc
  | c0 :: cs, 0, j, c, t, hc, ht => by
    simp only [List.getElem?_cons_zero, Option.some.injEq] at hc
    subst hc
    have hj : j < c0.tags.length := by
      rcases List.getElem?_eq_some.mp ht with ⟨h, _⟩
      exact h
    have hidx : tagsBefore (c0 :: cs) 0 + j = j := by simp [tagsBefore]
    rw [hidx, flatten_cons, List.getElem?_append, if_pos (by simpa using hj),
      List.getElem?_map, ht]
    rfl
  | c0 :: cs, i + 1, j, c, t, hc, ht => by
    simp only [List.getElem?_cons_succ] at hc
    have hidx : tagsBefore (c0 :: cs) (i + 1) + j
        = c0.tags.length + (tagsBefore cs i + j) := by
      simp [tagsBefore, List.take_succ_cons]
      omega
    rw [hidx, flatten_cons, List.getElem?_append, if_neg (by simp)]
    have hsub : c0.tags.length + (tagsBefore cs i + j)
        - (c0.tags.map (mkRow c0)).length = tagsBefore cs i + j := by
      simp
    rw [hsub]
    exact flatten_row_exact cs i j c t hc ht

/-- Witness for C3: in a two-campaign input, the second tag of the second
campaign lands after the first campaign's single row, fields copied verbatim
(including an absent tag name). -/
theorem flatten_row_exact_witness :
    (flatten [⟨"A", "An", [⟨"t1", some "VIP"⟩]⟩,
        ⟨"B", "Bn", [⟨"t2", some "Sale"⟩, ⟨"t3", none⟩]⟩])[
      tagsBefore [⟨"A", "An", [⟨"t1", some "VIP"⟩]⟩,
        ⟨"B", "Bn", [⟨"t2", some "Sale"⟩, ⟨"t3", none⟩]⟩] 1 + 1]?
      = some ⟨"B", "Bn", "t3", none⟩ :=
  flatten_row_exact
    [⟨"A", "An", [⟨"t1", some "VIP"⟩]⟩, ⟨"B", "Bn", [⟨"t2", some "Sale"⟩, ⟨"t3", none⟩]⟩]
    1 1 ⟨"B", "Bn", [⟨"t2", some "Sale"⟩, ⟨"t3", none⟩]⟩ ⟨"t3", none⟩ rfl rfl

/-- C4: a 429 iteration sleeps for the Retry-After hint (default 60), appends
no records, appends no warning, leaves `hasNext`, the cursor and the
accumulator unchanged, and repeats the same request against the remaining
script — so a 429 followed by a successful continuation succeeds with the
same records. -/
theorem fetch_rate_limited_step (limit : Int) (hasNext : Bool)
    (cursor : Option String) (acc : List CampaignRecord)
    (reqs : List (Option String)) (sleeps : List Nat) (warns : List String)
    (r : Response) (rest : List Response)
    (h429 : r.status_code = 429) (hn : hasNext = true)
    (hlt : (acc.length : Int) < limit) :
    fetchLoop limit hasNext cursor acc reqs sleeps warns (r :: rest)
      = fetchLoop limit hasNext cursor acc (reqs ++ [sentCursor cursor])
          (sleeps ++ [r.retry_after.getD 60]) warns rest := by
  simp [fetchLoop, h429, hn, hlt]

/-- Witness for C4: a 429 carrying `Retry-After: 7` followed by a 200 page
completes with one record, two identical requests, and a single 7-unit
sleep. -/
theorem fetch_rate_limited_step_witness :
    fetch_campaign_ids_and_tags 1
        [⟨429, some 7, "slow", none, [], none⟩,
         ⟨200, none, "ok", some [⟨"A", "An", ["t1"]⟩], [⟨"tag", "t1", "VIP"⟩], none⟩]
      = FetchOutcome.ok ⟨[⟨"A", "An", [⟨"t1", some "VIP"⟩]⟩], [none, none], [7], []⟩ := by
  have h := fetch_rate_limited_step 1 true none [] [] [] []
    ⟨429, some 7, "slow", none, [], none⟩
    [⟨200, none, "ok", some [⟨"A", "An", ["t1"]⟩], [⟨"tag", "t1", "VIP"⟩], none⟩]
    rfl rfl (by decide)
  exact h.trans (by rfl)

/-- C5 counterexample: a 201 response — a 2xx status — is treated as a hard
failure by the code (`response.status_code != 200` raises), not as success. -/
theorem fetch_status_201_errors :
    fetch_campaign_ids_and_tags 5
        [⟨201, none, "created", some [⟨"A", "An", []⟩], [], none⟩]
      = FetchOutcome.err "created" [none] [] [] := by rfl

/-- C5 (amended): every response whose status is neither 200 nor 429 makes
fetch fail with the response body, consuming no further responses (no retry)
and returning no records. -/
theorem fetch_non200_non429_errors (limit : Int) (hasNext : Bool)
    (cursor : Option String) (acc : List CampaignRecord)
    (reqs : List (Option String)) (sleeps : List Nat) (warns : List String)
    (r : Response) (rest : List Response)
    (h429 : r.status_code ≠ 429) (h200 : r.status_code ≠ 200)
    (hn : hasNext = true) (hlt : (acc.length : Int) < limit) :
    fetchLoop limit hasNext cursor acc reqs sleeps warns (r :: rest)
      = FetchOutcome.err r.body (reqs ++ [sentCursor cursor]) sleeps warns := by
  simp [fetchLoop, h429, h200, hn, hlt]

/-- Witness for C5: a 500 response errors with its body immediately, even
though a good 200 page follows in the script. -/
theorem fetch_non200_non429_errors_witness :
    fetchLoop 3 true none [] [] [] []
        [⟨500, none, "boom", none, [], none⟩, ⟨200, none, "ok", some [], [], none⟩]
      = FetchOutcome.err "boom" [none] [] [] :=
  fetch_non200_non429_errors 3 true none [] [] [] []
    ⟨500, none, "boom", none, [], none⟩ [⟨200, none, "ok", some [], [], none⟩]
    (by decide) (by decide) rfl (by decide)

/-- C7: with `limit = 1` and a first page holding two campaigns, fetch
returns exactly the first campaign's record and issues exactly one request,
whatever further responses the script could have served. -/
theorem fetch_limit_one_stops_midpage (r : Response) (rest : List Response)
    (c1 c2 : CampaignResource)
    (h200 : r.status_code = 200) (hdata : r.data = some [c1, c2]) :
    fetch_campaign_ids_and_tags 1 (r :: rest)
      = FetchOutcome.ok ⟨[buildRecord r.included c1], [none], [], []⟩ := by
  have hproc : processResources 1 r.included [] [c1, c2]
      = [buildRecord r.included c1] := by
    simp [processResources]
  unfold fetch_campaign_ids_and_tags
  simp only [fetchLoop, h200, hdata]
  rw [if_pos (by norm_num)]
  simp only [hproc]
  norm_num
  exact fetchLoop_done 1 _ _ _ _ _ _ rest (by simp)

/-- Witness for C7: a concrete two-campaign page with a next-page link and a
second page available in the script; fetch at `limit = 1` still returns one
record from one request. -/
theorem fetch_limit_one_stops_midpage_witness :
    fetch_campaign_ids_and_tags 1
        [⟨200, none, "ok", some [⟨"A", "An", ["t1"]⟩, ⟨"B", "Bn", []⟩],
          [⟨"tag", "t1", "VIP"⟩], some [("page[cursor]", "cur2")]⟩,
         ⟨200, none, "page2", some [⟨"C", "Cn", []⟩], [], none⟩]
      = FetchOutcome.ok ⟨[⟨"A", "An", [⟨"t1", some "VIP"⟩]⟩], [none], [], []⟩ :=
  fetch_limit_one_stops_midpage
    ⟨200, none, "ok", some [⟨"A", "An", ["t1"]⟩, ⟨"B", "Bn", []⟩],
      [⟨"tag", "t1", "VIP"⟩], some [("page[cursor]", "cur2")]⟩
    [⟨200, none, "page2", some [⟨"C", "Cn", []⟩], [], none⟩]
    ⟨"A", "An", ["t1"]⟩ ⟨"B", "Bn", []⟩ rfl rfl

/-- C6: when no entity of type `"tag"` with the referenced id appears in
`included`, the built tag entry carries an absent name, the tag is not
skipped (one entry per reference), and the absent name survives flattening
into the final row. -/
theorem missing_tag_name_absent (included : List IncludedEntity) (tid : String)
    (hmiss : ∀ e ∈ included, ¬(e.type = "tag" ∧ e.id = tid)) :
    resolveTagName included tid = none ∧
    ∀ c : CampaignResource, tid ∈ c.tagsData →
      (buildRecord included c).tags.length = c.tagsData.length ∧
      (⟨tid, none⟩ : TagRef) ∈ (buildRecord included c).tags ∧
      ∀ cs : List CampaignRecord, buildRecord included c ∈ cs →
        (⟨c.id, c.name, tid, none⟩ : CampaignTagRow) ∈ flatten cs := by
  have hres : resolveTagName included tid = none := by
    unfold resolveTagName
    have : included.find? (fun e => e.type == "tag" && e.id == tid) = none := by
      rw [List.find?_eq_none]
      intro e he
      simp only [Bool.and_eq_true, beq_iff_eq]
      exact fun h => hmiss e he h
    rw [this]
    rfl
  refine ⟨hres, fun c htid => ⟨by simp [buildRecord], ?_, ?_⟩⟩
  · exact List.mem_map.mpr ⟨tid, htid, by simp [buildTagRef, hres]⟩
  · intro cs hcs
    refine List.mem_flatMap.mpr ⟨buildRecord included c, hcs, ?_⟩
    exact List.mem_map.mpr ⟨⟨tid, none⟩,
      List.mem_map.mpr ⟨tid, htid, by simp [buildTagRef, hres]⟩, rfl⟩

/-- Witness for C6: an `included` entry of the wrong type does not match, the
tag entry gets an absent name, and the final flattened row carries it. -/
theorem missing_tag_name_absent_witness :
    resolveTagName [⟨"list", "t9", "NotATag"⟩] "t9" = none ∧
    (⟨"t9", none⟩ : TagRef)
      ∈ (buildRecord [⟨"list", "t9", "NotATag"⟩] ⟨"C", "Cn", ["t9"]⟩).tags ∧
    (⟨"C", "Cn", "t9", none⟩ : CampaignTagRow)
      ∈ flatten [buildRecord [⟨"list", "t9", "NotATag"⟩] ⟨"C", "Cn", ["t9"]⟩] := by
  have h := missing_tag_name_absent [⟨"list", "t9", "NotATag"⟩] "t9" (by decide)
  have h2 := h.2 ⟨"C", "Cn", ["t9"]⟩ (by decide)
  exact ⟨h.1, h2.2.1, h2.2.2 _ (by decide)⟩

/-- C8 counterexample: a 200 response whose `data` array is present but empty
contains no primary resources, yet the code takes the `if 'data' in data`
branch and logs no warning (warnings stay empty). -/
theorem empty_data_array_no_warning :
    fetch_campaign_ids_and_tags 5 [⟨200, none, "emptybody", some [], [], none⟩]
      = FetchOutcome.ok ⟨[], [none], [], []⟩ := by rfl

/-- C8 (amended): a 200 response lacking the `data` collection is non-fatal:
a warning (the response body) is recorded, no records are appended, and the
loop continues with the cursor extracted from the response's next link; if no
truthy cursor can be extracted, the loop ends normally with the accumulator
unchanged. -/
theorem missing_data_warns_and_continues (limit : Int) (hasNext : Bool)
    (cursor : Option String) (acc : List CampaignRecord)
    (reqs : List (Option String)) (sleeps : List Nat) (warns : List String)
    (r : Response) (rest : List Response)
    (h200 : r.status_code = 200) (hdata : r.data = none)
    (hn : hasNext = true) (hlt : (acc.length : Int) < limit) :
    fetchLoop limit hasNext cursor acc reqs sleeps warns (r :: rest)
      = fetchLoop limit (pyTruthy (extractCursor r.links_next))
          (extractCursor r.links_next) acc (reqs ++ [sentCursor cursor]) sleeps
          (warns ++ [r.body]) rest
    ∧ (pyTruthy (extractCursor r.links_next) = false →
        fetchLoop limit hasNext cursor acc reqs sleeps warns (r :: rest)
          = FetchOutcome.ok ⟨acc, reqs ++ [sentCursor cursor], sleeps,
              warns ++ [r.body]⟩) := by
  have hstep : fetchLoop limit hasNext cursor acc reqs sleeps warns (r :: rest)
      = fetchLoop limit (pyTruthy (extractCursor r.links_next))
          (extractCursor r.links_next) acc (reqs ++ [sentCursor cursor]) sleeps
          (warns ++ [r.body]) rest := by
    simp [fetchLoop, h200, hdata, hn, hlt]
  refine ⟨hstep, fun hfalse => ?_⟩
  rw [hstep]
  exact fetchLoop_done _ _ _ _ _ _ _ rest (by simp [hfalse])

/-- Witness for C8: a dataless 200 response with no next link ends the run
normally with zero records and one recorded warning. -/
theorem missing_data_warns_and_continues_witness :
    fetch_campaign_ids_and_tags 5 [⟨200, none, "nodata", none, [], none⟩]
      = FetchOutcome.ok ⟨[], [none], [], ["nodata"]⟩ :=
  (missing_data_warns_and_continues 5 true none [] [] [] []
    ⟨200, none, "nodata", none, [], none⟩ [] rfl rfl rfl (by decide)).2 rfl

/-- C10: when `included` holds several entities of type `"tag"` with the same
id, a reference to that id resolves to the name of the first one in array
order, whatever follows it. -/
theorem duplicate_tag_first_wins (pre post : List IncludedEntity)
    (e : IncludedEntity) (tid : String)
    (hpre : ∀ x ∈ pre, ¬(x.type = "tag" ∧ x.id = tid))
    (htype : e.type = "tag") (hid : e.id = tid) :
    resolveTagName (pre ++ e :: post) tid = some e.name := by
  have key : ∀ l : List IncludedEntity, (∀ x ∈ l, ¬(x.type = "tag" ∧ x.id = tid)) →
      (l ++ e :: post).find? (fun x => x.type == "tag" && x.id == tid) = some e := by
    intro l
    induction l with
    | nil =>
      intro _
      simp only [List.nil_append]
      exact List.find?_cons_of_pos _ (by simp [htype, hid])
    | cons x xs ih =>
      intro hl
      rw [List.cons_append, List.find?_cons_of_neg]
      · exact ih fun y hy => hl y (List.mem_cons_of_mem x hy)
      · simp only [Bool.and_eq_true, beq_iff_eq]
        exact hl x (List.mem_cons_self x xs)
  unfold resolveTagName
  rw [key pre hpre]
  rfl

/-- Witness for C10: two entities of type `"tag"` share the id `t1`; the
reference resolves to the first one's name. -/
theorem duplicate_tag_first_wins_witness :
    resolveTagName [⟨"tag", "t1", "First"⟩, ⟨"tag", "t1", "Second"⟩] "t1"
      = some "First" :=
  duplicate_tag_first_wins [] [⟨"tag", "t1", "Second"⟩] ⟨"tag", "t1", "First"⟩
    "t1" (by decide) rfl rfl

end KlaviyoSync
